import Mathlib

/-!
Verification of the plan-tree management and XML protocol code of the
`path_scripts` repository.

The development shallowly embeds the Python sources:

* `src/src/utils/xml_tools.py` — `extract_xml_from_response`,
  `format_xml_response`, `pretty_format_xml`;
* `src/src/agent/plan.py` — `update_plan`, `check_dependencies`,
  `apply_plan_updates`;
* `src/src/agent/task.py` — `execute_task` (the reachable code path);
* `src/src/agent/core.py` — the duplicate `Agent.extract_xml_from_response`;
* `src/src/interface/actions.py` — the `modify_file` branch of
  `execute_action`.

XML element trees (`xml.etree.ElementTree.Element`) are embedded as the
inductive type `Elem`: a tag, an ordered attribute list (Python dicts
preserve insertion order; `Element.set` overwrites in place or appends),
an optional text node, and a list of children.  The Python code keeps the
plan as a string and reparses it on every operation
(`ET.fromstring` / `ET.tostring`); the embedding works directly on the
parsed tree, treating that parse/serialize boundary as the identity, and
models each operation as a total function on `Elem`.

Python strings are embedded as Lean `String` operated on through their
character lists.  `str.find`, slicing, `str.replace`, `str.strip`,
`str.split` and `str.isdigit` are modelled by the `py*` functions below
(whitespace and digits are modelled over their ASCII ranges, which covers
every string the code manipulates).
-/

/-- ASCII whitespace test used to model Python `str.strip`. -/
def pyIsSpace (c : Char) : Bool :=
  c == ' ' || c == '\t' || c == '\n' || c == '\r'

/-- Model of Python `str.strip()` (no argument): remove whitespace from
both ends. -/
def pyStrip (s : String) : String :=
  String.mk (((s.data.dropWhile pyIsSpace).reverse.dropWhile pyIsSpace).reverse)

/-- Model of Python `str.split(",")` on character lists: split at every
comma, keeping empty pieces. -/
def pySplitCommaAux (acc : List Char) : List Char → List String
  | [] => [String.mk acc.reverse]
  | c :: rest =>
    if c == ',' then String.mk acc.reverse :: pySplitCommaAux [] rest
    else pySplitCommaAux (c :: acc) rest

/-- Model of Python `str.split(",")`. -/
def pySplitComma (s : String) : List String :=
  pySplitCommaAux [] s.data

/-- Model of Python `str.isdigit()` over ASCII digits: nonempty and all
characters are digits. -/
def pyIsDigit (s : String) : Bool :=
  !s.data.isEmpty && s.data.all (fun c => c.isDigit)

/-- First index at which `needle` occurs in `hay` (character lists);
`none` when there is no occurrence.  Models Python `str.find` (with its
`-1` result mapped to `none`). -/
def findIdx : List Char → List Char → Option Nat
  | needle, [] => if needle.isEmpty then some 0 else none
  | needle, c :: rest =>
    if needle.isPrefixOf (c :: rest) then some 0
    else (findIdx needle rest).map (· + 1)

/-- Model of Python `hay.find(needle)`. -/
def pyFind (hay needle : String) : Option Nat :=
  findIdx needle.data hay.data

/-- Model of Python `hay.find(needle, start)` for a nonnegative `start`:
search `hay[start:]` and report an absolute index. -/
def pyFindFrom (hay needle : String) (start : Nat) : Option Nat :=
  (findIdx needle.data (hay.data.drop start)).map (· + start)

/-- Model of Python slicing `s[a:b]` for nonnegative bounds: clamp to the
string, empty when `b ≤ a`. -/
def pySlice (s : String) (a b : Nat) : String :=
  String.mk ((s.data.take b).drop a)

/-- Model of Python `needle in hay` (substring containment). -/
def pyContains (hay needle : String) : Bool :=
  (pyFind hay needle).isSome

/-- One fuel-indexed pass of Python `str.replace` for a nonempty pattern:
scan left to right, replacing each occurrence and continuing after it
(non-overlapping).  The fuel is the length of the scanned list; each step
consumes at least one character, so the fuel never runs out on the calls
made by `pyReplaceAll`. -/
def replaceChars (pat rep : List Char) : Nat → List Char → List Char
  | _, [] => []
  | 0, l => l
  | fuel + 1, c :: rest =>
    if pat.isPrefixOf (c :: rest) then
      rep ++ replaceChars pat rep fuel ((c :: rest).drop pat.length)
    else
      c :: replaceChars pat rep fuel rest

/-- Model of Python `s.replace(pat, rep)` (no count argument): replaces
every non-overlapping occurrence, left to right.  An empty pattern, as in
Python, inserts `rep` before every character and at the end. -/
def pyReplaceAll (s pat rep : String) : String :=
  if pat.data.isEmpty then
    String.mk (rep.data ++ s.data.flatMap (fun c => c :: rep.data))
  else
    String.mk (replaceChars pat.data rep.data s.data.length s.data)

/-- Rendering of an optional attribute value inside a Python f-string:
`None` prints as `"None"`. -/
def pyStrOfOpt : Option String → String
  | some s => s
  | none => "None"

/-- Embedded XML element (`xml.etree.ElementTree.Element`): tag, ordered
attribute list, optional text node, children.  Tail text is never
consulted by the embedded code and is omitted. -/
inductive Elem where
  | mk (tag : String) (attrs : List (String × String)) (text : Option String)
       (children : List Elem)

def Elem.tag : Elem → String
  | .mk t _ _ _ => t

def Elem.attrs : Elem → List (String × String)
  | .mk _ a _ _ => a

def Elem.text : Elem → Option String
  | .mk _ _ x _ => x

def Elem.children : Elem → List Elem
  | .mk _ _ _ c => c

/-- Attribute lookup on an attribute list (Python `element.get(key)`,
`None` as `none`). -/
def lookupAttr (a : List (String × String)) (k : String) : Option String :=
  (a.find? (fun p => p.1 == k)).map Prod.snd

/-- Model of `element.get(key)`. -/
def getAttr (e : Elem) (k : String) : Option String :=
  lookupAttr e.attrs k

/-- Model of `element.get(key, default)`. -/
def getAttrD (e : Elem) (k d : String) : String :=
  (getAttr e k).getD d

/-- Model of `element.set(key, value)`: overwrite in place if the key is
present, append otherwise (Python dict update order). -/
def setAttr : List (String × String) → String → String → List (String × String)
  | [], k, v => [(k, v)]
  | (k', v') :: rest, k, v =>
    if k' == k then (k, v) :: rest else (k', v') :: setAttr rest k v

mutual
/-- Document-order (preorder) listing of an element and its descendants. -/
def preorder : Elem → List Elem
  | .mk t a x cs => .mk t a x cs :: preorderL cs
/-- Document-order listing of a forest. -/
def preorderL : List Elem → List Elem
  | [] => []
  | c :: cs => preorder c ++ preorderL cs
end

/-- All proper descendants of `e` in document order — the node set
searched by an ElementTree `.//` path (which never matches the element
the search starts from). -/
def descendants (e : Elem) : List Elem :=
  preorderL e.children

/-- Whether an element is matched by the path `.//task[@id='tid']`. -/
def isTaskWithId (tid : String) (e : Elem) : Bool :=
  e.tag == "task" && getAttr e "id" == some tid

/-- Model of `root.findall(".//task[@id='tid']")`. -/
def findTasksById (root : Elem) (tid : String) : List Elem :=
  (descendants root).filter (isTaskWithId tid)

/-- Model of `root.find(".//task[@id='tid']")`: first match in document
order, `none` when absent. -/
def findTaskById (root : Elem) (tid : String) : Option Elem :=
  (descendants root).find? (isTaskWithId tid)

/-!
### `update_plan` (src/src/agent/plan.py lines 80-109)

The source receives the plan as the string `agent.plan_tree`, reparses it,
mutates every node returned by `findall(".//task[@id='{task_id}'])"` and
reserializes.  The embedding operates on the parsed tree and returns
either the error string passed to `format_xml_response({"error": ...})`
or the updated tree (the source additionally wraps the result in an
`agent-response` document; that serialization layer is modelled
separately, see `format_xml_response_tree` and `pretty_format_xml`).
-/

/-- Value of Python `int(s)` for a string of ASCII digits. -/
def pyIntOfDigits (s : String) : Nat :=
  s.data.foldl (fun n c => n * 10 + (c.toNat - 48)) 0

/-- The guard `progress and progress.isdigit() and 0 <= int(progress) <= 100`
of plan.py line 93: the string is truthy, all digits, and its integer
value is at most 100 (it is never negative once `isdigit` holds). -/
def pyProgressValid : Option String → Bool
  | none => false
  | some p => p != "" && pyIsDigit p && decide (pyIntOfDigits p ≤ 100)

/-- The `notes` mutation of plan.py lines 91-92: `if notes:
task.set("notes", notes)` — set only when the argument is truthy. -/
def noteStep (notes : Option String) (a : List (String × String)) :
    List (String × String) :=
  match notes with
  | some s => if s != "" then setAttr a "notes" s else a
  | none => a

/-- The `progress` mutation of plan.py lines 93-94: set only when the
`pyProgressValid` guard holds. -/
def progStep (prog : Option String) (a : List (String × String)) :
    List (String × String) :=
  match prog with
  | some p => if pyProgressValid (some p) then setAttr a "progress" p else a
  | none => a

/-- The attribute mutation applied to one matched task node by
plan.py lines 90-94: set `status` unconditionally, then `notes` when the
argument is truthy (`if notes:`), then `progress` only when
`pyProgressValid` holds. -/
def updateMatchAttrs (st : String) (notes prog : Option String)
    (a : List (String × String)) : List (String × String) :=
  progStep prog (noteStep notes (setAttr a "status" st))

mutual
/-- Apply `updateMatchAttrs` to every node of the subtree rooted at the
argument that matches `.//task[@id='tid']` (the node itself included —
the top-level caller only ever passes descendants of the root). -/
def updTask (tid st : String) (notes prog : Option String) : Elem → Elem
  | .mk t a x cs =>
    let a' := if isTaskWithId tid (.mk t a x cs) then
        updateMatchAttrs st notes prog a
      else a
    .mk t a' x (updTaskL tid st notes prog cs)
def updTaskL (tid st : String) (notes prog : Option String) :
    List Elem → List Elem
  | [] => []
  | c :: cs => updTask tid st notes prog c :: updTaskL tid st notes prog cs
end

/-- Model of `update_plan` (plan.py lines 80-109) on the parsed tree:
error when `findall(".//task[@id='{task_id}']")` matches nothing, the
updated tree otherwise.  The `if not agent.plan_tree` guard and the
reparse/reserialize boundary are outside the embedding. -/
def update_plan (root : Elem) (task_id new_status : String)
    (notes progress : Option String) : Except String Elem :=
  if (findTasksById root task_id).isEmpty then
    Except.error ("Task " ++ task_id ++ " not found")
  else
    Except.ok (.mk root.tag root.attrs root.text
      (updTaskL task_id new_status notes progress root.children))

/-!
### `check_dependencies` (src/src/agent/plan.py lines 111-157)
-/

/-- The dependency id list computed by plan.py line 140:
`[dep.strip() for dep in depends_on.split(",") if dep.strip()]`. -/
def depIdsOfAttr (dependsOn : String) : List String :=
  ((pySplitComma dependsOn).map pyStrip).filter (fun d => d != "")

/-- The dependency ids of a task element: empty when the `depends_on`
attribute is missing or empty (plan.py lines 135-137). -/
def depIds (t : Elem) : List String :=
  let dependsOn := getAttrD t "depends_on" ""
  if dependsOn == "" then [] else depIdsOfAttr dependsOn

/-- The problem message contributed by one dependency id
(plan.py lines 143-152), `none` when the dependency is completed. -/
def depProblem (root : Elem) (d : String) : Option String :=
  match findTaskById root d with
  | none => some ("Dependency " ++ d ++ " not found")
  | some e =>
    let st := getAttrD e "status" ""
    if st == "completed" then none
    else some ("Dependency " ++ d ++ " (" ++ getAttrD e "description" ""
      ++ ") is not completed (status: " ++ st ++ ")")

/-- Model of `check_dependencies` (plan.py lines 111-157) on the parsed
tree: the pair `(dependencies_met, missing)`.  The `if not
agent.plan_tree` guard and the `except Exception` wrapper (unreachable
for a total tree operation) are outside the embedding. -/
def check_dependencies (root : Elem) (task_id : String) : Bool × List String :=
  match findTaskById root task_id with
  | none => (false, ["Task " ++ task_id ++ " not found"])
  | some t =>
    let dependsOn := getAttrD t "depends_on" ""
    if dependsOn == "" then (true, [])
    else
      let probs := (depIdsOfAttr dependsOn).filterMap (depProblem root)
      (probs.isEmpty, probs)

/-!
### `execute_task` (src/src/agent/task.py lines 12-45)

Only lines 23-45 of `execute_task` are reachable: the function parses the
plan, looks the task up and returns basic task info.  Lines 46-268 sit
inside the `except Exception` handler after its `return` statement and
are dead code (and lines 273-292 are indented past that handler's suite,
an `IndentationError` that prevents the module from importing at all).
The embedding models the reachable path; the result is the dictionary
passed to `format_xml_response`.
-/

/-- A Python value appearing in the dictionaries the agent code passes to
`format_xml_response`: `None`, a string, or a nested dict. -/
inductive PyVal where
  | vnone
  | vstr (s : String)
  | vdict (entries : List (String × PyVal))

def PyVal.isNone : PyVal → Bool
  | .vnone => true
  | _ => false

/-- Model of the reachable path of `execute_task` (task.py lines 23-45):
the content dictionary handed to `format_xml_response`.  No dependency
check is performed and the tree is not mutated on this path. -/
def execute_task (root : Elem) (task_id : String) : List (String × PyVal) :=
  match findTaskById root task_id with
  | none => [("error", .vstr ("Task " ++ task_id ++ " not found"))]
  | some t =>
    [("task", .vdict
      [("id", .vstr task_id),
       ("description", .vstr (getAttrD t "description" "")),
       ("status", .vstr (getAttrD t "status" "pending"))])]

/-!
### `apply_plan_updates` (src/src/agent/plan.py lines 159-242)

As shipped, the function raises before doing anything: its guard at line
167 reads `if not agent.极plan_tree:` — the attribute name carries a stray
U+6781 character, making it a valid Python identifier that no `Agent`
object defines (both `Agent` classes in core.py define `plan_tree`, and
`update_plan` at line 80 and `check_dependencies` at line 122 use the
clean `if not agent.plan_tree` guard).  The attribute access therefore
raises `AttributeError` on every call, before the `try` block of lines
170-242, whose `except Exception` handler cannot catch it.  The embedding
models the shipped entry path (`apply_plan_updates`) and, separately, the
directive-processing body of the `try` block
(`apply_plan_updates_body`) — unreachable in the shipped code, but the
evident intent.
-/

/-- Python exception classes distinguished by the embedded code. -/
inductive PyErr where
  | typeError
  | parseError
  | attributeError
  | otherError
deriving DecidableEq

/-- Model of the attribute access `agent.极plan_tree` (plan.py line 167):
no `Agent` object defines an attribute of that (mojibake) name, so the
access raises `AttributeError` unconditionally. -/
def agentMojibakePlanTree : Except PyErr String :=
  .error .attributeError

mutual
/-- Replace the first node (document order) of the subtree rooted at the
argument that matches `.//task[@id='tid']` by its image under `f`; the
boolean reports whether a match was found.  Models the in-place mutation
of the element returned by `plan_root.find(f".//task[@id='...'])"` (the
top-level caller passes only descendants of the root, matching the
root-excluding `.//` search). -/
def mapFirstTask (tid : String) (f : Elem → Elem) : Elem → Elem × Bool
  | .mk t a x cs =>
    if isTaskWithId tid (.mk t a x cs) then (f (.mk t a x cs), true)
    else
      let r := mapFirstTaskL tid f cs
      (.mk t a x r.1, r.2)
def mapFirstTaskL (tid : String) (f : Elem → Elem) :
    List Elem → List Elem × Bool
  | [] => ([], false)
  | c :: cs =>
    let r := mapFirstTask tid f c
    if r.2 then (r.1 :: cs, true)
    else
      let r' := mapFirstTaskL tid f cs
      (c :: r'.1, r'.2)
end

/-- Append `nt` as the last child of the first descendant of `root`
matching `.//task[@id='tid']` (models `parent.append(new_task)`). -/
def appendChildAtTask (root : Elem) (tid : String) (nt : Elem) : Elem :=
  .mk root.tag root.attrs root.text
    (mapFirstTaskL tid (fun e => .mk e.tag e.attrs e.text (e.children ++ [nt])) root.children).1

/-- One `add_task` directive (plan.py lines 179-195): locate the parent
via `.//task[@id='{parent_id}']` (a missing `parent_id` attribute renders
as the literal string `"None"` inside the f-string), do nothing when the
parent is not found, otherwise append a fresh `task` element carrying
every directive attribute except `parent_id` and log the addition. -/
def addTaskStep (plan : Elem) (log : List String) (d : Elem) :
    Elem × List String :=
  let pid := pyStrOfOpt (getAttr d "parent_id")
  match findTaskById plan pid with
  | none => (plan, log)
  | some _ =>
    let newTask : Elem :=
      .mk "task" (d.attrs.filter (fun p => p.1 != "parent_id")) none []
    (appendChildAtTask plan pid newTask,
     log ++ ["Added new task " ++ pyStrOfOpt (getAttr newTask "id") ++ ": "
       ++ pyStrOfOpt (getAttr newTask "description")])

/-- One `modify_task` directive (plan.py lines 198-213): locate the task
via `.//task[@id='{task_id}']`, do nothing when absent, otherwise set
every directive attribute except `id` on it and log the change. -/
def modifyTaskStep (plan : Elem) (log : List String) (d : Elem) :
    Elem × List String :=
  let tid := pyStrOfOpt (getAttr d "id")
  match findTaskById plan tid with
  | none => (plan, log)
  | some t =>
    let apply := fun (a : List (String × String)) =>
      (d.attrs.filter (fun p => p.1 != "id")).foldl
        (fun acc kv => setAttr acc kv.1 kv.2) a
    let oldDesc := getAttrD t "description" ""
    let newDesc := (lookupAttr (apply t.attrs) "description").getD ""
    let plan' : Elem := .mk plan.tag plan.attrs plan.text
      (mapFirstTaskL tid (fun e => .mk e.tag (apply e.attrs) e.text e.children)
        plan.children).1
    let msg := if oldDesc != newDesc then
        "Modified task " ++ tid ++ ": " ++ oldDesc ++ " -> " ++ newDesc
      else "Updated attributes for task " ++ tid
    (plan', log ++ [msg])

/-- Remove the first direct child that is a `task` element whose `id`
attribute equals `tidOpt` (Python compares `child.get("id") == task_id`,
where both sides may be `None`); the boolean reports whether a removal
happened.  Models the inner loop of plan.py lines 226-230. -/
def delFirstTaskChild (tidOpt : Option String) :
    List Elem → List Elem × Bool
  | [] => ([], false)
  | c :: cs =>
    if c.tag == "task" && getAttr c "id" == tidOpt then (cs, true)
    else
      let r := delFirstTaskChild tidOpt cs
      (c :: r.1, r.2)

mutual
/-- The net effect of the parent scan of plan.py lines 225-230 on the
subtree rooted at the argument: every `task` element loses its first
direct `task` child whose id matches.  The recursion processes the
children before deleting from the processed list; this equals per-parent
removal from the original list because processing changes no tag or
attribute, and it reproduces the imperative log count exactly: the scan
iterates a prefetched `findall(".//task")` list, so parents inside a
subtree that an earlier parent already detached still perform (and log) a
removal, which no longer affects the final tree.  The `Nat` component
counts those log lines. -/
def removeAll (tidOpt : Option String) : Elem → Elem × Nat
  | .mk t a x cs =>
    let r' := removeAllL tidOpt cs
    if t == "task" then
      let r := delFirstTaskChild tidOpt r'.1
      (.mk t a x r.1, (if r.2 then 1 else 0) + r'.2)
    else
      (.mk t a x r'.1, r'.2)
def removeAllL (tidOpt : Option String) : List Elem → List Elem × Nat
  | [] => ([], 0)
  | c :: cs =>
    let r := removeAll tidOpt c
    let r' := removeAllL tidOpt cs
    (r.1 :: r'.1, r.2 + r'.2)
end

/-- One `remove_task` directive (plan.py lines 216-230): nothing happens
unless `.//task[@id='{task_id}']` finds the task; then every candidate
parent in `findall(".//task")` (which never includes the root wrapper
element itself) loses its first matching direct child.  The count of the
removal log lines is the number of candidate parents that had a matching
direct child at the start of the directive. -/
def removeTaskStep (plan : Elem) (log : List String) (d : Elem) :
    Elem × List String :=
  let tidOpt := getAttr d "id"
  match findTaskById plan (pyStrOfOpt tidOpt) with
  | none => (plan, log)
  | some t =>
    let r := removeAllL tidOpt plan.children
    let msg := "Removed task " ++ pyStrOfOpt tidOpt ++ ": "
      ++ getAttrD t "description" ""
    (.mk plan.tag plan.attrs plan.text r.1, log ++ List.replicate r.2 msg)

/-- The directives of one kind, in document order:
`updates_root.findall("./add_task")` etc. select direct children only. -/
def directivesOf (updates : Elem) (kind : String) : List Elem :=
  updates.children.filter (fun e => e.tag == kind)

/-- Model of the `try`-block body of `apply_plan_updates` (plan.py lines
170-240) on the parsed trees: process every `add_task`, then every
`modify_task`, then every `remove_task` directive, returning the new plan
tree and the printed change log.  In the shipped code this body is
unreachable — see `apply_plan_updates` — and the reparse/reserialize
boundary and the `except Exception` printing wrapper are outside the
embedding. -/
def apply_plan_updates_body (plan updates : Elem) : Elem × List String :=
  let s1 := (directivesOf updates "add_task").foldl
    (fun st d => addTaskStep st.1 st.2 d) (plan, [])
  let s2 := (directivesOf updates "modify_task").foldl
    (fun st d => modifyTaskStep st.1 st.2 d) s1
  (directivesOf updates "remove_task").foldl
    (fun st d => removeTaskStep st.1 st.2 d) s2

/-- Model of `apply_plan_updates` as shipped (plan.py lines 159-242): the
guard at line 167 evaluates `agent.极plan_tree`, which raises
`AttributeError` before the `try` block, so no directive is ever processed
and the plan tree is never reassigned (line 233 is unreachable).  Had the
attribute access succeeded, a falsy value would return without processing
and a truthy one would run the directive body. -/
def apply_plan_updates (plan updates : Elem) :
    Except PyErr (Elem × List String) :=
  match agentMojibakePlanTree with
  | .error e => .error e
  | .ok s => if s != "" then .ok (apply_plan_updates_body plan updates)
             else .ok (plan, [])

/-!
### XML extraction (src/src/utils/xml_tools.py lines 8-32 and
src/src/agent/core.py lines 307-322)
-/

/-- Model of `extract_xml_from_response` (xml_tools.py lines 8-32): find
the first `<tag`, find the first `</tag>` at or after it, return the
inclusive slice; `None` when either anchor is absent. -/
def extract_xml_from_response (response tag_name : String) : Option String :=
  let startTag := "<" ++ tag_name
  let endTag := "</" ++ tag_name ++ ">"
  match pyFind response startTag with
  | none => none
  | some startIndex =>
    match pyFindFrom response endTag startIndex with
    | none => none
    | some endIndex =>
      some (pySlice response startIndex (endIndex + endTag.length))

/-- Model of the duplicate `Agent.extract_xml_from_response`
(core.py lines 307-322).  The source computes
`end_index = response.find(end_tag, start_index) + len(end_tag)` and then
tests `end_index != -1`: when the end tag is absent, `find` returns `-1`,
so `end_index` becomes `len(end_tag) - 1 ≥ 3` and the test passes,
producing the slice `response[start_index : len(end_tag) - 1]` instead of
`None`.  (When `start_index` is `-1`, Python treats the `-1` start of
`find` as `len(response) - 1`; the result is discarded by the
`start_index != -1` test, so only `none` can be returned then.) -/
def agentExtract (response tag_name : String) : Option String :=
  let startTag := "<" ++ tag_name
  let endTag := "</" ++ tag_name ++ ">"
  let startFind := pyFind response startTag
  let base : Nat := match startFind with
    | some i => i
    | none => response.length - 1
  let endIndex : Int := (match pyFindFrom response endTag base with
    | some j => (j : Int)
    | none => -1) + (endTag.length : Int)
  match startFind with
  | none => none
  | some startIndex =>
    if endIndex != -1 then
      some (pySlice response startIndex endIndex.toNat)
    else none

/-!
### `modify_file` (src/src/interface/actions.py lines 88-117)

The embedding takes the change pairs as the extracted `(original, new)`
strings (a missing `<original>`/`<new>` child yields `""`, actions.py
lines 100-101), the file's existence flag and its current content; the
console output and the interactive confirmation are outside the
embedding.
-/

/-- The change loop of actions.py lines 98-107: fold over the change
pairs, replacing (via Python `str.replace`, i.e. every occurrence) when
`original in file_content` holds and skipping with a warning otherwise;
the boolean is `changes_applied`. -/
def applyChanges : String → List (String × String) → String × Bool
  | content, [] => (content, false)
  | content, (orig, repl) :: rest =>
    if pyContains content orig then
      ((applyChanges (pyReplaceAll content orig repl) rest).1, true)
    else
      applyChanges content rest

/-- Model of the `modify_file` branch of `execute_action`
(actions.py lines 88-117): the final file content and the returned
boolean.  A missing file is reported (`false`) and nothing is written;
the content is written back only when at least one change applied. -/
def execute_modify_file (fileExists : Bool) (content : String)
    (changes : List (String × String)) : String × Bool :=
  if !fileExists then (content, false)
  else
    let r := applyChanges content changes
    if r.2 then (r.1, true) else (content, false)

/-!
### `format_xml_response` (src/src/utils/xml_tools.py lines 55-97)

The element-building stage (lines 65-91) is embedded as a function of the
content dictionary; `ET.fromstring` on an XML-looking string value and
`json.dumps` on a dict value are library calls the embedding receives as
parameters (`parse`, `jd`), so every theorem below holds for every
behaviour of those calls.  The final `pretty_format_xml` serialization
step is modelled separately below.
-/

/-- The test of xml_tools.py lines 71-75: the value is a string whose
stripped form starts with `<` and ends with `>`. -/
def looksLikeXml (s : String) : Bool :=
  List.isPrefixOf ['<'] (pyStrip s).data
    && List.isSuffixOf ['>'] (pyStrip s).data

/-- The child element built for one non-`None` entry
(xml_tools.py lines 71-91): an XML-looking string is parsed and appended
as a subtree (falling back to a text child on parse failure), a dict
value becomes a text child holding its `json.dumps` rendering, any other
string becomes a plain text child. -/
def buildEntry (parse : String → Option Elem)
    (jd : List (String × PyVal) → String) (kv : String × PyVal) : Elem :=
  match kv.2 with
  | .vnone => .mk kv.1 [] none []
  | .vstr s =>
    if looksLikeXml s then
      match parse s with
      | some el => el
      | none => .mk kv.1 [] (some s) []
    else .mk kv.1 [] (some s) []
  | .vdict d => .mk kv.1 [] (some (jd d)) []

/-- The loop of xml_tools.py lines 67-91: `None` values are skipped
(`continue`), every other entry appends one child. -/
def formatChildren (parse : String → Option Elem)
    (jd : List (String × PyVal) → String) :
    List (String × PyVal) → List Elem
  | [] => []
  | (_, .vnone) :: rest => formatChildren parse jd rest
  | kv :: rest => buildEntry parse jd kv :: formatChildren parse jd rest

/-- Model of the element-building stage of `format_xml_response`
(xml_tools.py lines 65-91): the `agent-response` root with one child per
non-`None` entry. -/
def format_xml_response_tree (parse : String → Option Elem)
    (jd : List (String × PyVal) → String)
    (entries : List (String × PyVal)) : Elem :=
  .mk "agent-response" [] none (formatChildren parse jd entries)

/-!
### `pretty_format_xml` (src/src/utils/xml_tools.py lines 100-167)

Line 111 constructs `ET.XMLParser(resolve_entities=False)`.  The standard
library's `xml.etree.ElementTree.XMLParser` accepts only the `target` and
`encoding` keyword arguments (`resolve_entities` belongs to lxml), so the
construction raises `TypeError` on every call, before any parsing or
formatting happens.  The surrounding `try` is closed by
`except ET.ParseError` (line 157) only, which does not catch `TypeError`,
so the exception propagates to the caller.  The remainder of the `try`
body and the minidom fallback are therefore unreachable; the embedding
receives them as parameters (`fmtBody`, `minidomFallback`), so every
theorem below holds whatever those unreachable parts would compute.
-/

/-- Model of `ET.XMLParser(resolve_entities=False)` (xml_tools.py line
111): the stdlib constructor rejects the `resolve_entities` keyword with
`TypeError`. -/
def makeXmlParserResolveEntities : Except PyErr Unit :=
  .error .typeError

/-- Model of `pretty_format_xml` (xml_tools.py lines 100-167): run the
`try` body (whose first statement is the failing parser construction);
`except ET.ParseError` falls back to minidom, whose own failure returns
the original string; any other exception propagates. -/
def pretty_format_xml (fmtBody : String → Except PyErr String)
    (minidomFallback : String → Except PyErr String) (s : String) :
    Except PyErr String :=
  match makeXmlParserResolveEntities >>= fun _ => fmtBody s with
  | .ok r => .ok r
  | .error .parseError =>
    (match minidomFallback s with
     | .ok r => .ok r
     | .error _ => .ok s)
  | .error e => .error e

/-!
### Claim-side definitions

These two definitions are written from the specification's words, not
from the source; they exist to be compared with the source-derived
definitions above (refinement claims C2 and C4).
-/

/-- Spec wording for `modify_file` ("a single first-occurrence literal
substring replacement of original with new"): replace only the first
occurrence. -/
def replaceFirstOccurrence_spec (s pat rep : String) : String :=
  match pyFind s pat with
  | none => s
  | some i =>
    String.mk (s.data.take i ++ rep.data ++ s.data.drop (i + pat.length))

/-- Spec wording for `extract_tagged_section`: "the inclusive substring
from the first literal occurrence of `<tag` to the end of the first
`</tag>` occurring at or after it", and "no value when either anchor is
absent".  Occurrences are located by searching all candidate positions in
increasing order. -/
def extract_tagged_section_spec (text tag : String) : Option String :=
  let s := text.data
  let st := ("<" ++ tag).data
  let en := ("</" ++ tag ++ ">").data
  match (List.range (s.length + 1)).find? (fun i => st.isPrefixOf (s.drop i)) with
  | none => none
  | some i =>
    match (List.range (s.length + 1)).find?
        (fun j => decide (i ≤ j) && en.isPrefixOf (s.drop j)) with
    | none => none
    | some j => some (String.mk ((s.drop i).take (j + en.length - i)))

/-!
### Shape projections and concrete plan trees used by the theorems
-/

/-- A node with its children forgotten: tag, text, attributes. -/
def elemShape (e : Elem) : String × Option String × List (String × String) :=
  (e.tag, e.text, e.attrs)

/-- The per-node effect `update_plan` is specified to have: matching task
nodes get `updateMatchAttrs`, all others keep their attributes. -/
def expectedUpdate (tid st : String) (notes prog : Option String) (e : Elem) :
    String × Option String × List (String × String) :=
  (e.tag, e.text,
   if isTaskWithId tid e then updateMatchAttrs st notes prog e.attrs
   else e.attrs)

/-- Tag and id attribute of a node. -/
def tagAndId (e : Elem) : String × Option String :=
  (e.tag, getAttr e "id")

/-- The plan of spec §8's dependency scenario:
`<plan><task id="root" description="Root"><task id="t1" description="A"
status="pending" depends_on="" progress="0"/><task id="t2"
description="B" status="pending" depends_on="t1"
progress="0"/></task></plan>`. -/
def scenarioPlan : Elem :=
  .mk "plan" [] none
    [.mk "task" [("id", "root"), ("description", "Root")] none
      [.mk "task" [("id", "t1"), ("description", "A"), ("status", "pending"),
         ("depends_on", ""), ("progress", "0")] none [],
       .mk "task" [("id", "t2"), ("description", "B"), ("status", "pending"),
         ("depends_on", "t1"), ("progress", "0")] none []]]

/-- Two tasks whose `depends_on` attributes form a cycle. -/
def cyclicPlan : Elem :=
  .mk "plan" [] none
    [.mk "task" [("id", "root"), ("description", "Root")] none
      [.mk "task" [("id", "t1"), ("description", "A"), ("status", "pending"),
         ("depends_on", "t2")] none [],
       .mk "task" [("id", "t2"), ("description", "B"), ("status", "completed"),
         ("depends_on", "t1")] none []]]

/-- A plan whose root wrapper has one top-level task with nested
subtasks. -/
def nestedPlan : Elem :=
  .mk "plan" [] none
    [.mk "task" [("id", "root"), ("description", "Top")] none
      [.mk "task" [("id", "t1"), ("description", "Mid")] none
        [.mk "task" [("id", "t2"), ("description", "Leaf")] none []]]]

/-!
## Theorems

General infrastructure first, then one theorem per claim (with its
witness or counterexample where required).
-/

/-- Induction principle for the nested `Elem` tree: to prove a property
of every element it suffices to prove it for a node assuming it for all
children. -/
theorem elem_induction (P : Elem → Prop)
    (h : ∀ t a x cs, (∀ c ∈ cs, P c) → P (.mk t a x cs)) : ∀ e, P e := by
  intro e
  have key : ∀ n (e : Elem), sizeOf e ≤ n → P e := by
    intro n
    induction n with
    | zero =>
      intro e he
      cases e with
      | mk t a x cs => simp at he
    | succ n ih =>
      intro e he
      cases e with
      | mk t a x cs =>
        apply h
        intro c hc
        apply ih
        have h1 : sizeOf c < sizeOf cs := List.sizeOf_lt_of_mem hc
        have h2 : sizeOf (Elem.mk t a x cs) =
            1 + sizeOf t + sizeOf a + sizeOf x + sizeOf cs := by simp
        omega
  exact key (sizeOf e) e le_rfl


theorem lookupAttr_setAttr_same (a : List (String × String)) (k v : String) :
    lookupAttr (setAttr a k v) k = some v := by
  induction a with
  | nil => simp [setAttr, lookupAttr, List.find?]
  | cons p rest ih =>
    by_cases h : (p.1 == k) = true
    · simp [setAttr, h, lookupAttr, List.find?]
    · simp only [setAttr, h, Bool.false_eq_true, if_false]
      simpa [lookupAttr, List.find?, h] using ih

theorem lookupAttr_setAttr_other (a : List (String × String)) (k v k' : String)
    (hne : k' ≠ k) : lookupAttr (setAttr a k v) k' = lookupAttr a k' := by
  have hkk : (k == k') = false := by
    simp only [beq_eq_false_iff_ne, ne_eq]
    exact fun hh => hne hh.symm
  induction a with
  | nil => simp [setAttr, lookupAttr, List.find?, hkk]
  | cons p rest ih =>
    by_cases h : (p.1 == k) = true
    · have hpk : p.1 = k := by simpa using h
      have h' : (p.1 == k') = false := by
        simp [hpk]; exact fun hh => hne hh.symm
      have h'' : (k == k') = false := by
        simp; exact fun hh => hne hh.symm
      simp [setAttr, h, lookupAttr, List.find?, h', h'']
    · simp only [setAttr, h, Bool.false_eq_true, if_false]
      by_cases h2 : (p.1 == k') = true
      · simp [lookupAttr, List.find?, h2]
      · simpa [lookupAttr, List.find?, h2] using ih

theorem lookupAttr_noteStep_other (notes : Option String)
    (a : List (String × String)) (k : String) (hk : k ≠ "notes") :
    lookupAttr (noteStep notes a) k = lookupAttr a k := by
  cases notes with
  | none => rfl
  | some s =>
    by_cases h : (s != "") = true
    · simp only [noteStep, h, if_true]
      exact lookupAttr_setAttr_other a "notes" s k hk
    · simp only [noteStep, h, Bool.false_eq_true, if_false]

theorem lookupAttr_progStep_other (prog : Option String)
    (a : List (String × String)) (k : String) (hk : k ≠ "progress") :
    lookupAttr (progStep prog a) k = lookupAttr a k := by
  cases prog with
  | none => rfl
  | some p =>
    by_cases h : pyProgressValid (some p) = true
    · simp only [progStep, h, if_true]
      exact lookupAttr_setAttr_other a "progress" p k hk
    · simp only [progStep, h, Bool.false_eq_true, if_false]

theorem progStep_invalid (prog : Option String) (a : List (String × String))
    (h : pyProgressValid prog = false) : progStep prog a = a := by
  cases prog with
  | none => rfl
  | some p => simp only [progStep, h, Bool.false_eq_true, if_false]

theorem updateMatchAttrs_status (st : String) (notes prog : Option String)
    (a : List (String × String)) :
    lookupAttr (updateMatchAttrs st notes prog a) "status" = some st := by
  unfold updateMatchAttrs
  rw [lookupAttr_progStep_other _ _ _ (by decide),
    lookupAttr_noteStep_other _ _ _ (by decide)]
  exact lookupAttr_setAttr_same a "status" st

theorem updateMatchAttrs_notes (st : String) (notes prog : Option String)
    (a : List (String × String)) (s : String) (hs : notes = some s)
    (hne : s ≠ "") :
    lookupAttr (updateMatchAttrs st notes prog a) "notes" = some s := by
  unfold updateMatchAttrs
  rw [lookupAttr_progStep_other _ _ _ (by decide)]
  subst hs
  have h : (s != "") = true := by simpa using hne
  simp only [noteStep, h, if_true]
  exact lookupAttr_setAttr_same _ "notes" s

theorem updateMatchAttrs_progress_valid (st : String) (notes : Option String)
    (p : String) (a : List (String × String))
    (hv : pyProgressValid (some p) = true) :
    lookupAttr (updateMatchAttrs st notes (some p) a) "progress" = some p := by
  unfold updateMatchAttrs
  simp only [progStep, hv, if_true]
  exact lookupAttr_setAttr_same _ "progress" p

theorem updateMatchAttrs_progress_invalid (st : String)
    (notes prog : Option String) (a : List (String × String))
    (hv : pyProgressValid prog = false) :
    lookupAttr (updateMatchAttrs st notes prog a) "progress" =
      lookupAttr a "progress" := by
  unfold updateMatchAttrs
  rw [progStep_invalid _ _ hv,
    lookupAttr_noteStep_other _ _ _ (by decide),
    lookupAttr_setAttr_other _ _ _ _ (by decide)]

/-- C3: the claim states that `pretty_format_xml` never raises and
returns the original string on parse failure; the code instead raises
`TypeError` on every input, because line 111 passes the unsupported
`resolve_entities` keyword to the stdlib `ET.XMLParser` and the
surrounding handler catches only `ET.ParseError`.  This theorem evaluates
the embedded function: whatever the (unreachable) format body and minidom
fallback would do, every call fails with `TypeError`. -/
theorem pretty_format_xml_always_raises :
    ∀ (fmtBody minidomFallback : String → Except PyErr String) (s : String),
      pretty_format_xml fmtBody minidomFallback s = .error .typeError := by
  intro f g s
  rfl

/-- C9 counterexample: the claim "applying `pretty_print` twice yields
the same output as applying it once" is false on the code because a
single application already yields no output at all — here at the
repository's own test input — so there is no output for the second
application to reproduce. -/
theorem pretty_print_yields_no_output :
    ¬ ∃ out : String,
      pretty_format_xml (fun s => .ok s) (fun s => .ok s)
        "<response><message>Test</message><data>123</data></response>" =
        .ok out := by
  rintro ⟨out, h⟩
  exact Except.noConfusion h

/-- C9 as amended: `pretty_format_xml` fails with `TypeError` on every
input (the unsupported `resolve_entities` keyword), so the single and the
double application fail identically — idempotence holds only in this
vacuous failing sense, never as an equation between outputs. -/
theorem pretty_print_trivial_idempotence :
    ∀ (fmtBody minidomFallback : String → Except PyErr String) (s : String),
      (∃ e, pretty_format_xml fmtBody minidomFallback s = .error e) ∧
      (pretty_format_xml fmtBody minidomFallback s).bind
          (pretty_format_xml fmtBody minidomFallback) =
        pretty_format_xml fmtBody minidomFallback s := by
  intro f g s
  exact ⟨⟨.typeError, rfl⟩, rfl⟩

/-- C1: on the spec §8 scenario plan, task `t2` has an unmet dependency
(`check_dependencies` reports it), yet the reachable code of
`execute_task` returns a plain task-info result — it never consults
`check_dependencies` and reports no missing dependencies (the
dependency-checking code of task.py lines 71-87 is unreachable, and the
module has an `IndentationError` at line 274 besides). -/
theorem execute_task_skips_dependency_check :
    check_dependencies scenarioPlan "t2" =
      (false, ["Dependency t1 (A) is not completed (status: pending)"]) ∧
    execute_task scenarioPlan "t2" =
      [("task", .vdict [("id", .vstr "t2"), ("description", .vstr "B"),
        ("status", .vstr "pending")])] ∧
    (execute_task scenarioPlan "t2").map Prod.fst = ["task"] := by
  refine ⟨by decide, by rfl, by decide⟩

theorem applyChanges_none_applied (changes : List (String × String)) :
    ∀ content : String, (applyChanges content changes).2 = false →
      applyChanges content changes = (content, false) := by
  induction changes with
  | nil => intro content _; rfl
  | cons hd tl ih =>
    intro content h
    match hd with
    | (o, r) =>
      by_cases hc : pyContains content o = true
      · exfalso
        simp [applyChanges, hc] at h
      · have hc' : pyContains content o = false := by simpa using hc
        simp only [applyChanges, hc', Bool.false_eq_true, if_false] at h ⊢
        exact ih content h

/-- C2 counterexample: on file content `"aa"` the single change
`("a", "b")` produces `"bb"` — Python `str.replace` rewrites every
occurrence — whereas the claimed single first-occurrence replacement
would produce `"ba"`. -/
theorem modify_file_replaces_all_occurrences :
    (applyChanges "aa" [("a", "b")]).1 = "bb" ∧
    replaceFirstOccurrence_spec "aa" "a" "b" = "ba" ∧
    (applyChanges "aa" [("a", "b")]).1 ≠
      replaceFirstOccurrence_spec "aa" "a" "b" := by
  refine ⟨by decide, by decide, by decide⟩

/-- C2 as amended: each change pair whose `original` occurs in the
current content replaces every occurrence (Python `str.replace`); a
change whose `original` is absent is skipped while the remaining changes
still apply; and when no change applies the file is left byte-identical
and nothing is written back. -/
theorem modify_file_batch_semantics :
    ∀ (content : String) (changes : List (String × String)) (orig repl : String),
      (pyContains content orig = false →
        applyChanges content ((orig, repl) :: changes) =
          applyChanges content changes) ∧
      (pyContains content orig = true →
        applyChanges content ((orig, repl) :: changes) =
          ((applyChanges (pyReplaceAll content orig repl) changes).1, true)) ∧
      ((applyChanges content changes).2 = false →
        (applyChanges content changes).1 = content) ∧
      (∀ fileExists : Bool, (applyChanges content changes).2 = false →
        execute_modify_file fileExists content changes = (content, false)) := by
  intro content changes orig repl
  refine ⟨?_, ?_, ?_, ?_⟩
  · intro h
    simp [applyChanges, h]
  · intro h
    simp [applyChanges, h]
  · intro h
    exact congrArg Prod.fst (applyChanges_none_applied changes content h)
  · intro fileExists h
    cases fileExists with
    | false => rfl
    | true =>
      simp only [execute_modify_file, Bool.not_true, Bool.false_eq_true,
        if_false, h, applyChanges_none_applied changes content h]

/-- C2 witness: a batch on content `"hello"` whose first change is absent
(`"zzz"`) reduces to the batch without it, and the remaining change still
applies, producing `"hippo"`. -/
theorem modify_file_batch_semantics_witness :
    pyContains "hello" "zzz" = false ∧
    applyChanges "hello" [("zzz", "x"), ("ell", "ipp")] =
      applyChanges "hello" [("ell", "ipp")] ∧
    applyChanges "hello" [("ell", "ipp")] = ("hippo", true) := by
  refine ⟨by decide,
    (modify_file_batch_semantics "hello" [("ell", "ipp")] "zzz" "x").1 (by decide),
    by decide⟩

/-- C7 counterexample: a field whose value is the empty string is not
omitted — `format_xml_response` produces a child element with the
field's tag (subsequent serialization through `pretty_format_xml` is
settled separately, see C3). -/
theorem format_xml_empty_string_field_kept :
    ((format_xml_response_tree (fun _ => none) (fun _ => "{}")
       [("message", .vstr "")]).children.map Elem.tag = ["message"]) ∧
    (format_xml_response_tree (fun _ => none) (fun _ => "{}")
       [("message", .vstr "")]).children ≠ [] := by
  constructor
  · rfl
  · intro h
    have hmap : (format_xml_response_tree (fun _ => none) (fun _ => "{}")
        [("message", PyVal.vstr "")]).children.map Elem.tag = ["message"] := rfl
    rw [h] at hmap
    simp at hmap

/-- C7 as amended: `None`-valued (absent) fields are omitted entirely —
the children of the produced document are exactly the non-`None` entries
in order — but an empty-string field is kept as an element with the
field's tag and empty text, for every behaviour of the XML-parse and
`json.dumps` library calls. -/
theorem format_xml_response_none_omission :
    ∀ (parse : String → Option Elem) (jd : List (String × PyVal) → String)
      (k : String) (rest entries : List (String × PyVal)),
      (formatChildren parse jd ((k, .vnone) :: rest) =
        formatChildren parse jd rest) ∧
      (formatChildren parse jd entries =
        (entries.filter (fun kv => !kv.2.isNone)).map (buildEntry parse jd)) ∧
      (buildEntry parse jd (k, .vstr "") = .mk k [] (some "") []) ∧
      (format_xml_response_tree parse jd entries =
        .mk "agent-response" [] none (formatChildren parse jd entries)) := by
  intro parse jd k rest entries
  refine ⟨rfl, ?_, by rfl, rfl⟩
  induction entries with
  | nil => rfl
  | cons hd tl ih =>
    match hd with
    | (k', v) =>
      cases v with
      | vnone => simpa [formatChildren, PyVal.isNone, List.filter] using ih
      | vstr s => simp [formatChildren, PyVal.isNone, List.filter, ih]
      | vdict d => simp [formatChildren, PyVal.isNone, List.filter, ih]

theorem elem_eta (e : Elem) : Elem.mk e.tag e.attrs e.text e.children = e := by
  cases e
  rfl

theorem addFold_noop (plan : Elem) : ∀ (ds : List Elem) (log : List String),
    (∀ d ∈ ds, findTaskById plan (pyStrOfOpt (getAttr d "parent_id")) = none) →
    ds.foldl (fun st d => addTaskStep st.1 st.2 d) (plan, log) = (plan, log) := by
  intro ds
  induction ds with
  | nil => intro log _; rfl
  | cons d tl ih =>
    intro log h
    have hd := h d (List.mem_cons_self d tl)
    have step : addTaskStep plan log d = (plan, log) := by
      simp [addTaskStep, hd]
    simp only [List.foldl_cons, step]
    exact ih log (fun x hx => h x (List.mem_cons_of_mem _ hx))

/-- C8: the claim says an `add_task` directive whose `parent_id` matches
no task id leaves the tree unchanged (node count constant) and does not
raise, with no diagnostic.  As shipped, `apply_plan_updates` raises
`AttributeError` on every call — plan.py line 167 reads the undefined
attribute `agent.极plan_tree` before any directive is processed — so the
"does not raise" half fails for every input, regardless of the directive
(first conjunct).  The directive processing itself — unreachable, but
plainly the intent, given the `if not agent.plan_tree` guards of
`update_plan` and `check_dependencies` — is exactly the claimed silent
no-op: an unmatched `add_task` leaves tree and change log untouched, per
directive and for a whole patch of such directives. -/
theorem add_task_missing_parent_noop :
    (∀ plan updates : Elem,
      apply_plan_updates plan updates = .error .attributeError) ∧
    (∀ (plan : Elem) (log : List String) (d : Elem),
      findTaskById plan (pyStrOfOpt (getAttr d "parent_id")) = none →
        addTaskStep plan log d = (plan, log)) ∧
    (∀ plan updates : Elem,
      (∀ d' ∈ directivesOf updates "add_task",
          findTaskById plan (pyStrOfOpt (getAttr d' "parent_id")) = none) →
        directivesOf updates "modify_task" = [] →
        directivesOf updates "remove_task" = [] →
        apply_plan_updates_body plan updates = (plan, [])) := by
  refine ⟨fun plan updates => rfl, ?_, ?_⟩
  · intro plan log d h
    simp [addTaskStep, h]
  · intro plan updates hadd hmod hrem
    unfold apply_plan_updates_body
    rw [hmod, hrem]
    simp only [List.foldl_nil]
    exact addFold_noop plan _ [] hadd

/-- C8 witness: on the nested plan with the single directive
`<add_task parent_id="ghost" id="n1"/>`, the shipped function raises
`AttributeError`, while the unreachable directive body leaves the plan
untouched with an empty change log. -/
theorem add_task_missing_parent_noop_witness :
    apply_plan_updates nestedPlan
        (.mk "plan_update" [] none
          [.mk "add_task" [("parent_id", "ghost"), ("id", "n1")] none []]) =
      .error .attributeError ∧
    addTaskStep nestedPlan []
      (.mk "add_task" [("parent_id", "ghost"), ("id", "n1")] none []) =
      (nestedPlan, []) ∧
    apply_plan_updates_body nestedPlan
      (.mk "plan_update" [] none
        [.mk "add_task" [("parent_id", "ghost"), ("id", "n1")] none []]) =
      (nestedPlan, []) :=
  ⟨add_task_missing_parent_noop.1 nestedPlan
    (.mk "plan_update" [] none
      [.mk "add_task" [("parent_id", "ghost"), ("id", "n1")] none []]),
   add_task_missing_parent_noop.2.1 nestedPlan []
     (.mk "add_task" [("parent_id", "ghost"), ("id", "n1")] none [])
     (by rfl),
   add_task_missing_parent_noop.2.2 nestedPlan
     (.mk "plan_update" [] none
       [.mk "add_task" [("parent_id", "ghost"), ("id", "n1")] none []])
     (by
       intro d' hd'
       rw [show directivesOf
           (Elem.mk "plan_update" [] none
             [.mk "add_task" [("parent_id", "ghost"), ("id", "n1")] none []])
           "add_task" =
         [Elem.mk "add_task" [("parent_id", "ghost"), ("id", "n1")] none []]
         from rfl] at hd'
       rw [List.mem_singleton.mp hd']
       rfl)
     (by rfl) (by rfl)⟩

theorem removeAll_shape (tidOpt : Option String) (e : Elem) :
    (removeAll tidOpt e).1.tag = e.tag ∧
    (removeAll tidOpt e).1.attrs = e.attrs ∧
    (removeAll tidOpt e).1.text = e.text := by
  cases e with
  | mk t a x cs =>
    by_cases ht : (t == "task") = true
    · simp [removeAll, ht, Elem.tag, Elem.attrs, Elem.text]
    · simp [removeAll, ht, Elem.tag, Elem.attrs, Elem.text]

theorem tagAndId_of_shape {e e' : Elem} (ht : e'.tag = e.tag)
    (ha : e'.attrs = e.attrs) : tagAndId e' = tagAndId e := by
  simp [tagAndId, getAttr, ht, ha]

theorem removeAllL_shape (tidOpt : Option String) (l : List Elem) :
    (removeAllL tidOpt l).1.map tagAndId = l.map tagAndId := by
  induction l with
  | nil => rfl
  | cons c cs ih =>
    simp only [removeAllL, List.map_cons]
    rw [ih]
    have hs := removeAll_shape tidOpt c
    rw [tagAndId_of_shape hs.1 hs.2.1]

theorem delFirstTaskChild_no_match (tidOpt : Option String) :
    ∀ l : List Elem,
      (∀ c ∈ l, ¬(c.tag = "task" ∧ getAttr c "id" = tidOpt)) →
      delFirstTaskChild tidOpt l = (l, false) := by
  intro l
  induction l with
  | nil => intro _; rfl
  | cons c cs ih =>
    intro h
    have hc := h c (List.mem_cons_self c cs)
    have hb : (c.tag == "task" && getAttr c "id" == tidOpt) = false := by
      by_cases h1 : c.tag = "task"
      · have h2 : getAttr c "id" ≠ tidOpt := fun h2 => hc ⟨h1, h2⟩
        simp [h1, h2]
      · simp [h1]
    simp only [delFirstTaskChild, hb, Bool.false_eq_true, if_false]
    rw [ih (fun x hx => h x (List.mem_cons_of_mem _ hx))]

theorem mem_preorderL_of_mem_preorder {x c : Elem} :
    ∀ {cs : List Elem}, c ∈ cs → x ∈ preorder c → x ∈ preorderL cs := by
  intro cs
  induction cs with
  | nil => intro h; exact absurd h (List.not_mem_nil c)
  | cons d tl ih =>
    intro hmem hx
    rcases List.mem_cons.mp hmem with h | h
    · subst h
      exact List.mem_append.mpr (Or.inl hx)
    · exact List.mem_append.mpr (Or.inr (ih h hx))

theorem removeAllL_no_match (tidOpt : Option String) :
    ∀ l : List Elem,
      (∀ c ∈ l, removeAll tidOpt c = (c, 0)) →
      removeAllL tidOpt l = (l, 0) := by
  intro l
  induction l with
  | nil => intro _; rfl
  | cons c cs ih =>
    intro h
    simp only [removeAllL, h c (List.mem_cons_self c cs),
      ih (fun x hx => h x (List.mem_cons_of_mem _ hx))]

theorem removeAll_no_match (tidOpt : Option String) :
    ∀ e : Elem,
      (∀ x ∈ preorder e, x.tag = "task" →
        ∀ c ∈ x.children, ¬(c.tag = "task" ∧ getAttr c "id" = tidOpt)) →
      removeAll tidOpt e = (e, 0) := by
  intro e
  induction e using elem_induction with
  | h t a x cs ih =>
    intro hpre
    have hmem : ∀ c ∈ cs, ∀ y ∈ preorder c, y ∈ preorder (Elem.mk t a x cs) := by
      intro c hc y hy
      show y ∈ Elem.mk t a x cs :: preorderL cs
      exact List.mem_cons_of_mem _ (mem_preorderL_of_mem_preorder hc hy)
    have hlist : removeAllL tidOpt cs = (cs, 0) := by
      apply removeAllL_no_match
      intro c hc
      exact ih c hc (fun y hy => hpre y (hmem c hc y hy))
    by_cases ht : (t == "task") = true
    · have hself := hpre (Elem.mk t a x cs)
        (List.mem_cons_self _ _) (by simpa [Elem.tag] using ht)
      have hdel : delFirstTaskChild tidOpt cs = (cs, false) :=
        delFirstTaskChild_no_match tidOpt cs (by simpa [Elem.children] using hself)
      simp [removeAll, ht, hlist, hdel]
    · simp [removeAll, ht, hlist]

theorem mapFirstTask_shape (tid : String) (f : Elem → Elem)
    (hf : ∀ e, tagAndId (f e) = tagAndId e) (c : Elem) :
    tagAndId (mapFirstTask tid f c).1 = tagAndId c := by
  cases c with
  | mk t a x cs =>
    by_cases h : isTaskWithId tid (Elem.mk t a x cs) = true
    · simp only [mapFirstTask, h, if_true]
      exact hf _
    · simp only [mapFirstTask, h, Bool.false_eq_true, if_false]
      rfl

theorem mapFirstTaskL_shape (tid : String) (f : Elem → Elem)
    (hf : ∀ e, tagAndId (f e) = tagAndId e) :
    ∀ l : List Elem, (mapFirstTaskL tid f l).1.map tagAndId = l.map tagAndId := by
  intro l
  induction l with
  | nil => rfl
  | cons c cs ih =>
    simp only [mapFirstTaskL]
    by_cases h : (mapFirstTask tid f c).2 = true
    · simp only [h, if_true, List.map_cons]
      rw [mapFirstTask_shape tid f hf c]
    · simp only [h, Bool.false_eq_true, if_false, List.map_cons]
      rw [ih]

theorem lookupAttr_foldl_setAttr_other (k : String) :
    ∀ (kvs : List (String × String)) (a : List (String × String)),
      (∀ kv ∈ kvs, kv.1 ≠ k) →
      lookupAttr (kvs.foldl (fun acc kv => setAttr acc kv.1 kv.2) a) k =
        lookupAttr a k := by
  intro kvs
  induction kvs with
  | nil => intro a _; rfl
  | cons kv tl ih =>
    intro a h
    simp only [List.foldl_cons]
    rw [ih _ (fun x hx => h x (List.mem_cons_of_mem _ hx))]
    exact lookupAttr_setAttr_other a kv.1 kv.2 k
      (fun hh => h kv (List.mem_cons_self kv tl) hh.symm)

theorem addTaskStep_children_shape (plan : Elem) (log : List String)
    (d : Elem) :
    (addTaskStep plan log d).1.children.map tagAndId =
      plan.children.map tagAndId := by
  cases hfind : findTaskById plan (pyStrOfOpt (getAttr d "parent_id")) with
  | none => simp [addTaskStep, hfind]
  | some t =>
    simp only [addTaskStep, hfind, appendChildAtTask, Elem.children]
    apply mapFirstTaskL_shape
    intro e
    cases e
    rfl

theorem modifyTaskStep_children_shape (plan : Elem) (log : List String)
    (d : Elem) :
    (modifyTaskStep plan log d).1.children.map tagAndId =
      plan.children.map tagAndId := by
  cases hfind : findTaskById plan (pyStrOfOpt (getAttr d "id")) with
  | none => simp [modifyTaskStep, hfind]
  | some t =>
    simp only [modifyTaskStep, hfind, Elem.children]
    apply mapFirstTaskL_shape
    intro e
    have hmem : ∀ kv ∈ d.attrs.filter (fun p => p.1 != "id"), kv.1 ≠ "id" := by
      intro kv hkv
      have := List.of_mem_filter hkv
      simpa using this
    cases e with
    | mk te ae xe ce =>
      simp only [tagAndId, getAttr, Elem.tag, Elem.attrs]
      exact congrArg (fun o => (te, o))
        (lookupAttr_foldl_setAttr_other "id"
          (d.attrs.filter (fun p => p.1 != "id")) ae hmem)

theorem removeTaskStep_shape (plan : Elem) (log : List String) (d : Elem) :
    (removeTaskStep plan log d).1.tag = plan.tag ∧
    (removeTaskStep plan log d).1.attrs = plan.attrs ∧
    (removeTaskStep plan log d).1.children.map tagAndId =
      plan.children.map tagAndId := by
  cases hfind : findTaskById plan (pyStrOfOpt (getAttr d "id")) with
  | none => simp [removeTaskStep, hfind]
  | some t =>
    simp only [removeTaskStep, hfind]
    exact ⟨rfl, rfl, removeAllL_shape _ plan.children⟩

theorem foldl_children_shape
    (step : (Elem × List String) → Elem → (Elem × List String))
    (hstep : ∀ st d, ((step st d).1).children.map tagAndId =
      st.1.children.map tagAndId) :
    ∀ (ds : List Elem) (st : Elem × List String),
      ((ds.foldl step st).1).children.map tagAndId =
        st.1.children.map tagAndId := by
  intro ds
  induction ds with
  | nil => intro st; rfl
  | cons d tl ih =>
    intro st
    rw [List.foldl_cons, ih, hstep]

/-- C10: the claim reads the `remove_task` parent scan (plan.py lines
216-230) — candidate parents come from `findall(".//task")`, never the
root wrapper element — and concludes that a directive naming a direct
child of the root wrapper leaves the tree unchanged and that the root
wrapper's direct children always survive `apply_plan_updates`.  As
shipped that scan is dead code: `apply_plan_updates` raises
`AttributeError` at line 167 (`agent.极plan_tree`) before any directive
runs, so the root wrapper's children survive only because nothing
executes at all (first conjunct evaluates the shipped function at the
failing input).  The scan itself — the evident intent — does have the
claimed invariant: (i) a `remove_task` step preserves the root wrapper's
tag, attributes, and the whole list of its direct children (each keeping
its tag and id); (ii) when no `task` element of the tree has a direct
`task` child carrying the directive's id — in particular when, with ids
unique, the id names a task that is a direct child of the root wrapper —
the step leaves tree and change log completely unchanged; and (iii)
across the whole (unreachable) directive body the direct children of the
root wrapper are all still present, with tag and id intact. -/
theorem remove_task_preserves_root_children :
    apply_plan_updates nestedPlan
        (.mk "plan_update" [] none
          [.mk "remove_task" [("id", "root")] none []]) =
      .error .attributeError ∧
    (∀ (plan : Elem) (log : List String) (d : Elem),
      (removeTaskStep plan log d).1.tag = plan.tag ∧
      (removeTaskStep plan log d).1.attrs = plan.attrs ∧
      (removeTaskStep plan log d).1.children.map tagAndId =
        plan.children.map tagAndId) ∧
    (∀ (plan : Elem) (log : List String) (d : Elem),
      (∀ x ∈ descendants plan, x.tag = "task" →
          ∀ c ∈ x.children,
            ¬(c.tag = "task" ∧ getAttr c "id" = getAttr d "id")) →
        removeTaskStep plan log d = (plan, log)) ∧
    (∀ plan updates : Elem,
      (apply_plan_updates_body plan updates).1.children.map tagAndId =
        plan.children.map tagAndId) := by
  refine ⟨rfl, fun plan log d => removeTaskStep_shape plan log d, ?_, ?_⟩
  · intro plan log d hno
    cases hfind : findTaskById plan (pyStrOfOpt (getAttr d "id")) with
    | none => simp [removeTaskStep, hfind]
    | some t =>
      have hl : removeAllL (getAttr d "id") plan.children =
          (plan.children, 0) := by
        apply removeAllL_no_match
        intro c hc
        apply removeAll_no_match
        intro y hy
        exact hno y (mem_preorderL_of_mem_preorder hc hy)
      simp only [removeTaskStep, hfind, hl]
      simp [elem_eta]
  · intro plan updates
    have hrem : ∀ (st : Elem × List String) (dd : Elem),
        ((removeTaskStep st.1 st.2 dd).1).children.map tagAndId =
          (st.1).children.map tagAndId :=
      fun st dd => (removeTaskStep_shape st.1 st.2 dd).2.2
    have hmod : ∀ (st : Elem × List String) (dd : Elem),
        ((modifyTaskStep st.1 st.2 dd).1).children.map tagAndId =
          (st.1).children.map tagAndId :=
      fun st dd => modifyTaskStep_children_shape st.1 st.2 dd
    have hadd : ∀ (st : Elem × List String) (dd : Elem),
        ((addTaskStep st.1 st.2 dd).1).children.map tagAndId =
          (st.1).children.map tagAndId :=
      fun st dd => addTaskStep_children_shape st.1 st.2 dd
    simp only [apply_plan_updates_body]
    rw [foldl_children_shape _ hrem, foldl_children_shape _ hmod,
      foldl_children_shape _ hadd]

/-- C10 witness: removing the top-level task `root`, a direct child of
the `<plan>` wrapper of the nested plan, leaves the (unreachable) scan at
the identity, while the shipped `apply_plan_updates` raises
`AttributeError` at that same input. -/
theorem remove_task_preserves_root_children_witness :
    apply_plan_updates nestedPlan
        (.mk "plan_update" [] none
          [.mk "remove_task" [("id", "root")] none []]) =
      .error .attributeError ∧
    removeTaskStep nestedPlan []
      (.mk "remove_task" [("id", "root")] none []) = (nestedPlan, []) :=
  ⟨remove_task_preserves_root_children.1,
   remove_task_preserves_root_children.2.2.1 nestedPlan []
     (.mk "remove_task" [("id", "root")] none []) (by decide)⟩

theorem updTask_preorder (tid st : String) (notes prog : Option String) :
    ∀ e : Elem,
      (preorder (updTask tid st notes prog e)).map elemShape =
        (preorder e).map (expectedUpdate tid st notes prog) := by
  intro e
  induction e using elem_induction with
  | h t a x cs ih =>
    have hL : ∀ l : List Elem,
        (∀ c ∈ l, (preorder (updTask tid st notes prog c)).map elemShape =
          (preorder c).map (expectedUpdate tid st notes prog)) →
        (preorderL (updTaskL tid st notes prog l)).map elemShape =
          (preorderL l).map (expectedUpdate tid st notes prog) := by
      intro l
      induction l with
      | nil => intro _; rfl
      | cons c cs' ihl =>
        intro hmem
        simp only [updTaskL, preorderL, List.map_append]
        rw [hmem c (List.mem_cons_self c cs'),
          ihl (fun y hy => hmem y (List.mem_cons_of_mem _ hy))]
    have hhead : elemShape (updTask tid st notes prog (Elem.mk t a x cs)) =
        expectedUpdate tid st notes prog (Elem.mk t a x cs) := by
      by_cases hc : isTaskWithId tid (Elem.mk t a x cs) = true
      · simp [updTask, elemShape, expectedUpdate, hc, Elem.tag, Elem.text,
          Elem.attrs]
      · simp [updTask, elemShape, expectedUpdate, hc, Elem.tag, Elem.text,
          Elem.attrs]
    show (updTask tid st notes prog (Elem.mk t a x cs) ::
        preorderL (updTaskL tid st notes prog cs)).map elemShape =
      ((Elem.mk t a x cs) :: preorderL cs).map
        (expectedUpdate tid st notes prog)
    simp only [List.map_cons]
    rw [hhead, hL cs ih]

theorem updTaskL_preorderL (tid st : String) (notes prog : Option String) :
    ∀ l : List Elem,
      (preorderL (updTaskL tid st notes prog l)).map elemShape =
        (preorderL l).map (expectedUpdate tid st notes prog) := by
  intro l
  induction l with
  | nil => rfl
  | cons c cs ih =>
    simp only [updTaskL, preorderL, List.map_append]
    rw [updTask_preorder tid st notes prog c, ih]

/-- C5: `update_plan` errors exactly when no node matches the id;
otherwise the returned tree has the same root wrapper and, node for node
in document order, every matching `task` node receives `updateMatchAttrs`
while every other node keeps its attributes.  `updateMatchAttrs` sets
`status` unconditionally, sets `notes` when a nonempty string is provided
(`if notes:` — Python truthiness), sets `progress` to a provided valid
integer string in `[0, 100]`, and leaves the stored `progress` untouched
whenever the guard fails — so an out-of-range value such as `"150"` is
silently ignored rather than clamped. -/
theorem update_plan_matches_all_nodes :
    ∀ (root : Elem) (tid st : String) (notes prog : Option String),
      (findTasksById root tid = [] →
        update_plan root tid st notes prog =
          .error ("Task " ++ tid ++ " not found")) ∧
      (findTasksById root tid ≠ [] → ∃ root',
        update_plan root tid st notes prog = .ok root' ∧
        root'.tag = root.tag ∧ root'.attrs = root.attrs ∧
        root'.text = root.text ∧
        (descendants root').map elemShape =
          (descendants root).map (expectedUpdate tid st notes prog)) ∧
      (∀ a, lookupAttr (updateMatchAttrs st notes prog a) "status" = some st) ∧
      (∀ a (s : String), notes = some s → s ≠ "" →
        lookupAttr (updateMatchAttrs st notes prog a) "notes" = some s) ∧
      (∀ a (p : String), prog = some p → pyProgressValid (some p) = true →
        lookupAttr (updateMatchAttrs st notes prog a) "progress" = some p) ∧
      (∀ a, pyProgressValid prog = false →
        lookupAttr (updateMatchAttrs st notes prog a) "progress" =
          lookupAttr a "progress") := by
  intro root tid st notes prog
  refine ⟨?_, ?_, updateMatchAttrs_status st notes prog,
    fun a s hs hne => updateMatchAttrs_notes st notes prog a s hs hne,
    fun a p hp hv => by
      rw [hp]
      exact updateMatchAttrs_progress_valid st notes p a hv,
    fun a hv => updateMatchAttrs_progress_invalid st notes prog a hv⟩
  · intro h
    simp [update_plan, h]
  · intro h
    have hne : (findTasksById root tid).isEmpty = false := by
      cases hlist : findTasksById root tid with
      | nil => exact absurd hlist h
      | cons _ _ => rfl
    refine ⟨Elem.mk root.tag root.attrs root.text
      (updTaskL tid st notes prog root.children), ?_, rfl, rfl, rfl, ?_⟩
    · simp [update_plan, hne]
    · show (preorderL (updTaskL tid st notes prog root.children)).map elemShape =
        (preorderL root.children).map (expectedUpdate tid st notes prog)
      exact updTaskL_preorderL tid st notes prog root.children

/-- C5 witness: on the scenario plan, updating `t1` with the out-of-range
progress string `"150"` succeeds, every matched node is rewritten by
`updateMatchAttrs`, and the stored progress value `"0"` is left
untouched. -/
theorem update_plan_matches_all_nodes_witness :
    pyProgressValid (some "150") = false ∧
    (∃ root', update_plan scenarioPlan "t1" "in-progress" none (some "150") =
        .ok root' ∧
      root'.tag = scenarioPlan.tag ∧ root'.attrs = scenarioPlan.attrs ∧
      root'.text = scenarioPlan.text ∧
      (descendants root').map elemShape =
        (descendants scenarioPlan).map
          (expectedUpdate "t1" "in-progress" none (some "150"))) ∧
    lookupAttr (updateMatchAttrs "in-progress" none (some "150")
      [("progress", "0")]) "progress" = some "0" :=
  ⟨by decide,
   (update_plan_matches_all_nodes scenarioPlan "t1" "in-progress" none
     (some "150")).2.1 (fun h => List.noConfusion h),
   (update_plan_matches_all_nodes scenarioPlan "t1" "in-progress" none
     (some "150")).2.2.2.2.2 [("progress", "0")] (by decide)⟩

theorem depProblem_none_iff (root : Elem) (d : String) :
    depProblem root d = none ↔
      ∃ e, findTaskById root d = some e ∧
        getAttrD e "status" "" = "completed" := by
  unfold depProblem
  cases hf : findTaskById root d with
  | none => simp
  | some e =>
    by_cases hs : (getAttrD e "status" "" == "completed") = true
    · simp only [hs, if_true]
      simp only [beq_iff_eq] at hs
      simp [hs]
    · simp only [hs, Bool.false_eq_true, if_false]
      simp only [beq_iff_eq] at hs
      simp [hs]

/-- C6: `check_dependencies` fails with a "not found" message when the
task itself is absent; given the task's first match `t`, an empty
dependency list is trivially satisfied, the result is satisfied with an
empty problem list exactly when every dependency id resolves by full-tree
search to a node whose `status` is `completed`, and every unresolvable
dependency id contributes a "not found" problem message.  The check reads
only the direct `status` of each dependency — it never recurses — so a
`depends_on` cycle is settled by direct status alone (the witness
exercises a two-task cycle). -/
theorem check_dependencies_characterization :
    ∀ (root : Elem) (tid : String),
      (findTaskById root tid = none →
        check_dependencies root tid =
          (false, ["Task " ++ tid ++ " not found"])) ∧
      (∀ t, findTaskById root tid = some t →
        (depIds t = [] → check_dependencies root tid = (true, [])) ∧
        ((check_dependencies root tid).1 = true ∧
            (check_dependencies root tid).2 = [] ↔
          ∀ d ∈ depIds t, ∃ e, findTaskById root d = some e ∧
            getAttrD e "status" "" = "completed") ∧
        (∀ d ∈ depIds t, findTaskById root d = none →
          ("Dependency " ++ d ++ " not found") ∈
            (check_dependencies root tid).2)) := by
  intro root tid
  constructor
  · intro h
    simp [check_dependencies, h]
  · intro t ht
    by_cases hdep : (getAttrD t "depends_on" "" == "") = true
    · have hd0 : depIds t = [] := by simp [depIds, hdep]
      have hres : check_dependencies root tid = (true, []) := by
        simp [check_dependencies, ht, hdep]
      refine ⟨fun _ => hres, ?_, ?_⟩
      · rw [hres, hd0]
        simp
      · intro d hd
        rw [hd0] at hd
        exact absurd hd (List.not_mem_nil d)
    · have hd1 : depIds t = depIdsOfAttr (getAttrD t "depends_on" "") := by
        simp [depIds, hdep]
      have hres : check_dependencies root tid =
          (((depIdsOfAttr (getAttrD t "depends_on" "")).filterMap
             (depProblem root)).isEmpty,
           (depIdsOfAttr (getAttrD t "depends_on" "")).filterMap
             (depProblem root)) := by
        simp [check_dependencies, ht, hdep]
      refine ⟨?_, ?_, ?_⟩
      · intro h0
        rw [hd1] at h0
        rw [hres, h0]
        rfl
      · rw [hres, hd1]
        simp only [List.isEmpty_iff, and_self]
        rw [List.filterMap_eq_nil_iff]
        constructor
        · intro hall d hd
          exact (depProblem_none_iff root d).mp (hall d hd)
        · intro hall d hd
          exact (depProblem_none_iff root d).mpr (hall d hd)
      · intro d hd hnone
        rw [hres]
        rw [hd1] at hd
        refine List.mem_filterMap.mpr ⟨d, hd, ?_⟩
        simp [depProblem, hnone]

/-- C6 witness: a missing task is an unmet-dependency failure, and on a
two-task `depends_on` cycle the check of `t1` resolves from the direct
status of `t2` alone — `t2` is completed, so `t1`'s dependencies are
met even though `t2` in turn depends on `t1`. -/
theorem check_dependencies_characterization_witness :
    check_dependencies scenarioPlan "ghost" =
      (false, ["Task ghost not found"]) ∧
    ((check_dependencies cyclicPlan "t1").1 = true ∧
      (check_dependencies cyclicPlan "t1").2 = []) :=
  ⟨(check_dependencies_characterization scenarioPlan "ghost").1 (by rfl),
   by
    have h := ((check_dependencies_characterization cyclicPlan "t1").2
      (Elem.mk "task" [("id", "t1"), ("description", "A"),
        ("status", "pending"), ("depends_on", "t2")] none []) (by rfl)).2.1
    exact h.mpr (by decide)⟩

theorem isPrefixOf_nil_eq (needle : List Char) :
    needle.isPrefixOf [] = needle.isEmpty := by
  cases needle <;> simp [List.isPrefixOf]

theorem findIdx_eq_range (needle : List Char) :
    ∀ hay : List Char,
      findIdx needle hay =
        (List.range (hay.length + 1)).find?
          (fun i => needle.isPrefixOf (hay.drop i)) := by
  intro hay
  induction hay with
  | nil => cases needle <;> rfl
  | cons c rest ih =>
    simp only [findIdx, List.length_cons]
    rw [List.range_succ_eq_map]
    cases hp : needle.isPrefixOf (c :: rest) with
    | true =>
      have hp0 : needle.isPrefixOf ((c :: rest).drop 0) = true := by
        rw [List.drop_zero]
        exact hp
      simp [List.find?, hp0, hp]
    | false =>
      have hp0 : needle.isPrefixOf ((c :: rest).drop 0) = false := by
        rw [List.drop_zero]
        exact hp
      simp only [List.find?, hp0, hp, Bool.false_eq_true, if_false]
      rw [List.find?_map]
      have hfun : ((fun i => needle.isPrefixOf ((c :: rest).drop i)) ∘
          (· + 1)) = fun i => needle.isPrefixOf (rest.drop i) := by
        funext i
        simp [List.drop_succ_cons]
      rw [hfun, ih]

theorem range_find?_shift :
    ∀ (m i : Nat) (q : Nat → Bool),
      (List.range m).find? (fun j => decide (i ≤ j) && q j) =
        ((List.range (m - i)).find? (fun k => q (k + i))).map (· + i) := by
  intro m
  induction m with
  | zero =>
    intro i q
    simp [List.range_zero, List.find?]
  | succ m ih =>
    intro i q
    cases i with
    | zero =>
      have h1 : (fun j => decide (0 ≤ j) && q j) = q := by
        funext j
        simp
      have h2 : (fun k => q (k + 0)) = q := by
        funext k
        rw [Nat.add_zero]
      rw [h1, Nat.sub_zero, h2]
      cases (List.range (m + 1)).find? q <;> simp
    | succ i' =>
      rw [List.range_succ_eq_map]
      have h0 : (decide (i' + 1 ≤ 0) && q 0) = false := by simp
      simp only [List.find?, h0]
      rw [List.find?_map]
      have hfun : ((fun j => decide (i' + 1 ≤ j) && q j) ∘ (· + 1)) =
          fun j => decide (i' ≤ j) && q (j + 1) := by
        funext j
        simp [Nat.succ_le_succ_iff]
      rw [hfun, ih i' (fun j => q (j + 1))]
      have harith : (fun k => q (k + (i' + 1))) = fun k => q (k + i' + 1) := by
        funext k
        rw [Nat.add_assoc]
      rw [Nat.succ_sub_succ, harith, Option.map_map]
      have hcomp : ((fun x => x + 1) ∘ (fun x => x + i')) =
          fun x => x + (i' + 1) := by
        funext x
        simp [Nat.add_assoc]
      rw [hcomp]

theorem findIdx_some_facts {needle hay : List Char} {i : Nat}
    (h : findIdx needle hay = some i) :
    needle.isPrefixOf (hay.drop i) = true ∧ i ≤ hay.length := by
  rw [findIdx_eq_range] at h
  have hp := List.find?_some h
  have hm := List.mem_of_find?_eq_some h
  have hlt := List.mem_range.mp hm
  exact ⟨by simpa using hp, by omega⟩

theorem extract_code_eq_spec (text tag : String) :
    extract_xml_from_response text tag = extract_tagged_section_spec text tag := by
  simp only [extract_xml_from_response, extract_tagged_section_spec, pyFind]
  rw [findIdx_eq_range]
  cases h1 : (List.range (text.data.length + 1)).find?
      (fun i => ("<" ++ tag).data.isPrefixOf (text.data.drop i)) with
  | none => rfl
  | some i =>
    have hi : i ≤ text.data.length := by
      have := List.mem_range.mp (List.mem_of_find?_eq_some h1)
      omega
    have key2 : pyFindFrom text ("</" ++ tag ++ ">") i =
        (List.range (text.data.length + 1)).find?
          (fun j => decide (i ≤ j) &&
            ("</" ++ tag ++ ">").data.isPrefixOf (text.data.drop j)) := by
      rw [range_find?_shift]
      simp only [pyFindFrom]
      rw [findIdx_eq_range]
      have hlen : (text.data.drop i).length + 1 = text.data.length + 1 - i := by
        rw [List.length_drop]
        omega
      have hfun : (fun k => ("</" ++ tag ++ ">").data.isPrefixOf
            ((text.data.drop i).drop k)) =
          fun k => ("</" ++ tag ++ ">").data.isPrefixOf
            (text.data.drop (k + i)) := by
        funext k
        rw [List.drop_drop, Nat.add_comm]
      rw [hlen, hfun]
    dsimp only
    rw [key2]
    cases h2 : (List.range (text.data.length + 1)).find?
        (fun j => decide (i ≤ j) &&
          ("</" ++ tag ++ ">").data.isPrefixOf (text.data.drop j)) with
    | none => rfl
    | some j =>
      dsimp only
      simp only [pySlice]
      rw [List.drop_take]
      rfl

/-- C4 counterexample: with the end anchor `</actions>` absent,
`Agent.extract_xml_from_response` (core.py) does not return no value: the
`-1` sentinel of `find` has `len(end_tag)` added before the test, so the
spurious slice `"<acti"` is returned, while the spec-side extraction
correctly yields nothing. -/
theorem agent_extract_spurious_value :
    agentExtract "pre <actions> x" "actions" = some "<acti" ∧
    agentExtract "pre <actions> x" "actions" ≠ none ∧
    extract_tagged_section_spec "pre <actions> x" "actions" = none := by
  refine ⟨by decide, by decide, by decide⟩

/-- C4 as amended: the codec-side `extract_xml_from_response`
(xml_tools.py) agrees everywhere with the spec wording — the inclusive
substring from the first `<tag` to the end of the first `</tag>` at or
after it, and no value when either anchor is absent — and in particular
returns exactly the `<actions>...</actions>` section of the scenario
text; but the duplicate `Agent.extract_xml_from_response` (core.py),
whenever `<tag` occurs and `</tag>` does not, returns the spurious slice
`text[start : len(end_tag) - 1]` instead of no value. -/
theorem extract_tagged_section_refinement :
    (∀ text tag, extract_xml_from_response text tag =
      extract_tagged_section_spec text tag) ∧
    extract_xml_from_response
        "blah <actions><action type=\"x\"/></actions> blah" "actions" =
      some "<actions><action type=\"x\"/></actions>" ∧
    (∀ (text tag : String) (i : Nat), pyFind text ("<" ++ tag) = some i →
      pyFindFrom text ("</" ++ tag ++ ">") i = none →
      agentExtract text tag =
        some (pySlice text i (("</" ++ tag ++ ">").length - 1))) := by
  refine ⟨extract_code_eq_spec, by decide, ?_⟩
  intro text tag i h1 h2
  simp only [agentExtract, h1, h2]
  have hlen : 1 ≤ ("</" ++ tag ++ ">").length := by
    rw [String.length_append, String.length_append]
    have h3 : (">").length = 1 := rfl
    omega
  have hne : ((-1 + (("</" ++ tag ++ ">").length : Int)) != -1) = true := by
    simp only [bne_iff_ne, ne_eq]
    omega
  have htn : (-1 + (("</" ++ tag ++ ">").length : Int)).toNat =
      ("</" ++ tag ++ ">").length - 1 := by
    omega
  simp only [hne, if_true, htn]

/-- C4 witness: the characterizations applied at the counterexample
input: the start anchor of `actions` sits at index 4 of
`"pre <actions> x"`, the end anchor is absent, and the Agent duplicate
returns the slice `text[4 : 9]`. -/
theorem extract_tagged_section_refinement_witness :
    pyFind "pre <actions> x" "<actions" = some 4 ∧
    pyFindFrom "pre <actions> x" "</actions>" 4 = none ∧
    agentExtract "pre <actions> x" "actions" =
      some (pySlice "pre <actions> x" 4 ("</actions>".length - 1)) :=
  ⟨by decide, by decide,
   extract_tagged_section_refinement.2.2 "pre <actions> x" "actions" 4
     (by decide) (by decide)⟩
